import Mathlib

/-!
# Verification of the ivasms OTP-forwarding bot (`app.py`)

A shallow embedding of the program in `app.py`: an asynchronous Python
script that logs into a web portal through browser automation, polls an
SMS endpoint, extracts one-time passcodes with a regex, deduplicates
against a persisted cache file and forwards unseen messages to a list of
Telegram chats.

External effects (HTTP requests, the browser, the Telegram API, the
file system, `asyncio.sleep`) are modelled by explicit oracles and
state values; the control flow of every function is translated
line-by-line from the source.  Machine-level details (event loop
scheduling, real time) are outside the model.
-/

namespace IvasmsBot

/-! ## Configuration constants (`app.py` lines 13-28) -/

/-- `CHECK_INTERVAL = 5`: the fixed sleep between poll cycles. -/
def CHECK_INTERVAL : Nat := 5

/-- A Telegram chat id (`TELEGRAM_CHAT_IDS` holds strings or ints; we
model ids as integers). -/
abbrev ChatId := Int

/-- A browser cookie as `page.cookies()` returns it: name, value, domain. -/
abbrev Cookie := String × String × String

/-! ## The OTP extractor (`extract_otp`, lines 31-33)

`re.search(r"\b(\d{4,8})\b", text)` over `text`.  Strings are modelled
as their character lists.  `isWordChar` is the ASCII reading of the
regex class `\w` (letter, digit or underscore); `isBoundary` is `\b`,
which matches between two positions exactly when one side is a word
character and the other is not (a missing side counts as non-word).
The search tries every start position from the left; at a position the
greedy `\d{4,8}` tries to consume 8 digits first and backtracks down
to 4, and the trailing `\b` is checked between the last consumed
character and the character after it. -/

/-- The regex character class `\w` (ASCII): letters, digits, underscore. -/
def isWordChar (c : Char) : Bool := c.isAlphanum || c == '_'

/-- Word-character test on an optional character; a missing character
(string edge) is not a word character. -/
def wordOpt : Option Char → Bool
  | none => false
  | some c => isWordChar c

/-- The regex anchor `\b` between two adjacent positions. -/
def isBoundary (a b : Option Char) : Bool := wordOpt a != wordOpt b

/-- Can `\d{j}` consume exactly the first `j` characters of `l`? -/
def digitsTakeOK (l : List Char) (j : Nat) : Bool :=
  ((l.take j).length == j) && (l.take j).all Char.isDigit

/-- The trailing `\b` after `j` consumed characters of `l`: the boundary
between character `j-1` and character `j`. -/
def tailBoundary (l : List Char) (j : Nat) : Bool :=
  isBoundary ((l.drop (j - 1)).head?) ((l.drop j).head?)

/-- Greedy `\d{4,8}\b` at the start of `l`: try the candidate lengths in
backtracking order and return the consumed group. -/
def matchLens : List Nat → List Char → Option (List Char)
  | [], _ => none
  | j :: js, l =>
      if digitsTakeOK l j && tailBoundary l j then some (l.take j)
      else matchLens js l

/-- Match `\b(\d{4,8})\b` anchored at the current position, whose
previous character is `prev`. -/
def regexMatchAt (prev : Option Char) (l : List Char) : Option (List Char) :=
  if isBoundary prev l.head? then matchLens [8, 7, 6, 5, 4] l else none

/-- `re.search`: try the anchored match at every position left to right. -/
def regexSearch (prev : Option Char) : List Char → Option (List Char)
  | [] => regexMatchAt prev []
  | c :: rest =>
      match regexMatchAt prev (c :: rest) with
      | some r => some r
      | none => regexSearch (some c) rest

/-- `extract_otp(text)`: `m.group(1)` of the first match of
`\b(\d{4,8})\b`, or `None`. -/
def extract_otp (text : String) : Option String :=
  (regexSearch none text.data).map List.asString

/-- Written from the spec's words, for comparison with `extract_otp`:
return the first (left-to-right) maximal run of 4 to 8 decimal digits
whose neighbouring characters are non-digit/word boundaries, or absent
if no such run exists. -/
def specFirstRun (prev : Option Char) : List Char → Option (List Char)
  | [] => none
  | c :: rest =>
      if wordOpt prev = false ∧ c.isDigit = true ∧
          4 ≤ ((c :: rest).takeWhile Char.isDigit).length ∧
          ((c :: rest).takeWhile Char.isDigit).length ≤ 8 ∧
          wordOpt (((c :: rest).dropWhile Char.isDigit).head?) = false
      then some ((c :: rest).takeWhile Char.isDigit)
      else specFirstRun (some c) rest

/-- The spec-level OTP extractor on strings. -/
def spec_otp (text : String) : Option String :=
  (specFirstRun none text.data).map List.asString

/-! ## The cache store (`load_cache`/`save_cache`, lines 35-45)

`STATE_FILE` holds a JSON array of the already-forwarded message texts.
A file-system state is: the file is absent, or its content does not
parse into a collection of strings (bad JSON, or a JSON value that
`set(...)` rejects), or it is a JSON array of strings. -/

/-- The observable states of `STATE_FILE`. -/
inductive FileState
  | absent
  | malformed
  | strings (l : List String)
deriving DecidableEq

/-- `os.path.exists(STATE_FILE)`. -/
def fileExists : FileState → Bool
  | .absent => false
  | .malformed => true
  | .strings _ => true

/-- `set(json.load(open(STATE_FILE)))`: raises on a missing or
malformed file, otherwise yields the set of strings in the array. -/
def json_load_set : FileState → Except Unit (Finset String)
  | .absent => .error ()
  | .malformed => .error ()
  | .strings l => .ok l.toFinset

/-- `load_cache()`: guard on existence, then `try: return set(json.load(...))
except: return set()`. -/
def load_cache (fs : FileState) : Finset String :=
  if fileExists fs then
    match json_load_set fs with
    | .ok s => s
    | .error _ => ∅
  else ∅

/-- `save_cache(data)`: `json.dump(list(data), f)` after opening the file
in write mode — the file now holds exactly the elements of the set as a
JSON array.  Python's `list(set)` enumerates in an unspecified order; we
pick the sorted enumeration as the canonical representative, which is
faithful for every property about the *set* of persisted fingerprints. -/
def save_cache (data : Finset String) : FileState :=
  .strings (data.sort (· ≤ ·))

/-- The fingerprints a file state persists (empty unless it is an intact
JSON array of strings). -/
def fileFingerprints : FileState → Finset String
  | .strings l => l.toFinset
  | _ => ∅

/-! ## The notifier (`format_otp_message` lines 48-57, `send_to_telegram`
lines 191-194)

`bot.send_message` is an external call that may raise (network, API
error); whether the delivery to a given chat id completes is an oracle
`sendOk`.  The `for` loop has no per-destination guard: the first raise
propagates out of `send_to_telegram`.  We record the list of chat ids a
delivery was attempted to, and whether the whole call returned. -/

/-- `format_otp_message(raw_sms)`. -/
def format_otp_message (raw_sms : String) : String :=
  "🔐 *NEW OTP RECEIVED*\n━━━━━━━━━━━━━━━━━━\n\n🔢 *OTP:* `" ++
    (match extract_otp raw_sms with
     | some otp => otp
     | none => "N/A") ++
    "`\n\n📩 *FULL MESSAGE:*\n```" ++ raw_sms ++ "```\n\n⚠️ *Do not share this OTP with anyone*"

/-- The `for chat_id in TELEGRAM_CHAT_IDS` loop: attempt deliveries in
order; a raise stops the loop.  Returns the attempted ids and whether
the loop completed without raising. -/
def send_loop (sendOk : ChatId → Bool) : List ChatId → List ChatId × Bool
  | [] => ([], true)
  | c :: rest =>
      if sendOk c then
        ((send_loop sendOk rest).1.cons c, (send_loop sendOk rest).2)
      else ([c], false)

/-- `send_to_telegram(raw_sms)`: format the message, then deliver to each
configured chat id in turn. -/
def send_to_telegram_run (sendOk : ChatId → Bool) (chat_ids : List ChatId)
    (raw_sms : String) : List ChatId × Bool :=
  let _msg := format_otp_message raw_sms
  send_loop sendOk chat_ids

/-! ## The login function (`login_and_get_cookies`, lines 60-147)

Each iteration of `for attempt in range(1, max_retry + 1)` launches a
fresh browser and either (a) finds no form fields — screenshot, close,
sleep, continue; (b) raises somewhere inside the `try` — caught by the
bare `except`, close, sleep, continue; or (c) reaches
`page.cookies()`, yielding some cookie list `cs`: if `cs` is nonempty
the function returns it, otherwise it falls through to the next
attempt.  The outcome of each attempt is an oracle indexed by the
attempt number. -/

/-- What a single login attempt does, as observed at the decision points
of the source. -/
inductive AttemptOutcome
  | formNotFound
  | raised
  | cookies (cs : List Cookie)

/-- `attempt` is the 1-based attempt counter; the second argument is how
many iterations of the `for` loop remain.  Returns the result and the
number of attempts performed. -/
def login_attempts (outcome : Nat → AttemptOutcome) :
    Nat → Nat → Option (List Cookie) × Nat
  | _, 0 => (none, 0)
  | attempt, r + 1 =>
      match outcome attempt with
      | .cookies cs =>
          if cs.isEmpty then
            ((login_attempts outcome (attempt + 1) r).1,
             (login_attempts outcome (attempt + 1) r).2 + 1)
          else (some cs, 1)
      | _ =>
          ((login_attempts outcome (attempt + 1) r).1,
           (login_attempts outcome (attempt + 1) r).2 + 1)

/-- `login_and_get_cookies(max_retry=3)`: run the attempts starting at 1;
falling off the loop returns `None`. -/
def login_and_get_cookies (outcome : Nat → AttemptOutcome) (max_retry : Nat) :
    Option (List Cookie) × Nat :=
  login_attempts outcome 1 max_retry

/-- An attempt that does not produce a session: no form, an exception,
or an empty cookie list. -/
def attempt_fails : AttemptOutcome → Bool
  | .cookies cs => cs.isEmpty
  | _ => true

/-- Reinterpret an in-attempt exception as the plain form-not-found
failure path. -/
def as_failure : AttemptOutcome → AttemptOutcome
  | .raised => .formNotFound
  | o => o

/-! ## The message fetcher (`fetch_sms`, lines 150-188)

The two HTTP calls may raise; otherwise the landing page either carries
a `csrf-token` meta tag or not, and the POST response parses into the
texts of its `div.card-body` elements (in document order). -/

/-- The portal's observable behaviour during one fetch. -/
structure FetchEnv where
  /-- `client.get(BASE_URL)`: raises, or returns a page whose
  `csrf-token` meta content is the payload. -/
  dash : Except Unit (Option String)
  /-- `client.post(BASE_URL + SMS_ENDPOINT, ...)`: raises, or returns a
  page with these `card-body` texts. -/
  post : Except Unit (List String)

/-- `fetch_sms(cookies)`. -/
def fetch_sms (cookies : List Cookie) (env : FetchEnv) :
    Except Unit (List String) :=
  if cookies.isEmpty then .ok []
  else
    match env.dash with
    | .error e => .error e
    | .ok none => .ok []
    | .ok (some _csrf) =>
        match env.post with
        | .error e => .error e
        | .ok cards => .ok (cards.filter fun t => (extract_otp t).isSome)

/-! ## Module-level configuration (lines 13-28)

`os.getenv` returns `None` for an absent variable and is never
validated.  `TELEGRAM_CHAT_IDS` defaults to `"[]"`; we model the
variable by its decoded value.  The only constructor that validates
anything is `Bot(token=...)`, which raises `InvalidToken` when the
token is missing or empty (python-telegram-bot checks the token at
construction time). -/

/-- The process environment at startup. -/
structure StartupEnv where
  IVASMS_EMAIL : Option String
  IVASMS_PASSWORD : Option String
  TELEGRAM_BOT_TOKEN : Option String
  TELEGRAM_CHAT_IDS : Option (List ChatId)

/-- The module state after the config block ran to completion. -/
structure ModuleConfig where
  email : Option String
  password : Option String
  chatIds : List ChatId
  botToken : String
deriving DecidableEq

/-- `Bot(token=...)`: raises `InvalidToken` on a missing or empty token,
otherwise holds it. -/
def bot_init : Option String → Except String String
  | none => .error "InvalidToken"
  | some t => if t = "" then .error "InvalidToken" else .ok t

/-- Running the module-level config block: the credential lookups never
raise (absent variables simply yield `None`), the chat-id list defaults
to `[]`, and only the bot construction can abort startup. -/
def module_init (env : StartupEnv) : Except String ModuleConfig :=
  match bot_init env.TELEGRAM_BOT_TOKEN with
  | .error e => .error e
  | .ok t =>
      .ok ⟨env.IVASMS_EMAIL, env.IVASMS_PASSWORD,
           env.TELEGRAM_CHAT_IDS.getD [], t⟩

/-! ## The poll loop (`main`, lines 197-220)

State of the steady-state loop: the in-memory `sent_cache` set and the
cache file.  One cycle fetches, then walks the fetched messages in
order: a message already in the cache is skipped; otherwise
`send_to_telegram` runs (and may raise), then the fingerprint is added
to the set, then `save_cache` rewrites the file (and may raise —
modelled as leaving a truncated, malformed file, since `open(..., "w")`
truncates before `json.dump` writes).  The first raise aborts the rest
of the cycle and is caught by the `except` at the loop level. -/

/-- The mutable state the loop owns. -/
structure LoopState where
  sent_cache : Finset String
  file : FileState
deriving DecidableEq

/-- Where a cycle raised, if it did. -/
inductive CycleErr
  | fetchFail
  | notifyFail (msg : String)
  | saveFail (msg : String)
deriving DecidableEq

/-- The per-cycle oracle: the fetch outcome, per-message-per-chat
delivery outcomes, and per-message persistence outcomes. -/
structure CycleInput where
  fetched : Except Unit (List String)
  sendOk : String → ChatId → Bool
  saveOk : String → Bool

/-- The `for msg in messages` body of `main`.  Returns the state after
the walk, the messages forwarded without error (in order), and the
error that aborted the walk, if any. -/
def process_msgs (chat_ids : List ChatId) (inp : CycleInput) :
    List String → LoopState → LoopState × List String × Option CycleErr
  | [], st => (st, [], none)
  | m :: rest, st =>
      if m ∈ st.sent_cache then process_msgs chat_ids inp rest st
      else if (send_to_telegram_run (inp.sendOk m) chat_ids m).2 then
        if inp.saveOk m then
          ((process_msgs chat_ids inp rest
              ⟨insert m st.sent_cache, save_cache (insert m st.sent_cache)⟩).1,
           (process_msgs chat_ids inp rest
              ⟨insert m st.sent_cache, save_cache (insert m st.sent_cache)⟩).2.1.cons m,
           (process_msgs chat_ids inp rest
              ⟨insert m st.sent_cache, save_cache (insert m st.sent_cache)⟩).2.2)
        else (⟨insert m st.sent_cache, .malformed⟩, [m], some (.saveFail m))
      else (st, [], some (.notifyFail m))

/-- The body of the `try` block of one poll cycle. -/
def cycle_body (chat_ids : List ChatId) (st : LoopState) (inp : CycleInput) :
    LoopState × List String × Option CycleErr :=
  match inp.fetched with
  | .error _ => (st, [], some .fetchFail)
  | .ok msgs => process_msgs chat_ids inp msgs st

/-- One poll cycle as the loop sees it: the `except Exception as e`
handler swallows whatever error the body produced. -/
def cycle_step (chat_ids : List ChatId) (st : LoopState) (inp : CycleInput) :
    LoopState × List String :=
  ((cycle_body chat_ids st inp).1, (cycle_body chat_ids st inp).2.1)

/-- Run a finite sequence of poll cycles from `st`, accumulating the
successfully forwarded messages. -/
def run_cycles (chat_ids : List ChatId) :
    List CycleInput → LoopState → LoopState × List String
  | [], st => (st, [])
  | inp :: rest, st =>
      ((run_cycles chat_ids rest (cycle_step chat_ids st inp).1).1,
       (cycle_step chat_ids st inp).2 ++
         (run_cycles chat_ids rest (cycle_step chat_ids st inp).1).2)

/-- The loop state `main` builds before entering the steady-state loop
when the persisted cache file is intact: `sent_cache = load_cache()`. -/
def initState (l : List String) : LoopState :=
  ⟨load_cache (.strings l), .strings l⟩

/-- A cycle whose oracles report no failure anywhere. -/
def allOk (inp : CycleInput) : Prop :=
  (∀ s c, inp.sendOk s c = true) ∧ (∀ s, inp.saveOk s = true)

/-- Message `m` is in the cycle's fetch result. -/
def appears (m : String) (inp : CycleInput) : Prop :=
  ∃ msgs, inp.fetched = .ok msgs ∧ m ∈ msgs

/-! ## The infinite loop (`while True`, lines 208-220)

A run status distinguishing a live loop from one an escaped exception
would have killed; `main_step` is one `while True` iteration: run the
`try` body, let the bare `except` catch whatever it raised, then sleep
`CHECK_INTERVAL`. -/

/-- Whether the loop is still alive. -/
inductive RunStatus
  | running
  | crashed
deriving DecidableEq

/-- The full state of `main` in its steady-state loop. -/
structure MainState where
  loop : LoopState
  trace : List String
  elapsed : Nat
  status : RunStatus

/-- One iteration of `while True`: the cycle body runs under `try`; its
error, if any, is caught and logged by `except Exception as e` — in
both cases control reaches `asyncio.sleep(CHECK_INTERVAL)` and the next
iteration. -/
def main_step (chat_ids : List ChatId) (inp : CycleInput) (s : MainState) :
    MainState :=
  match s.status with
  | .crashed => s
  | .running =>
      ⟨(cycle_body chat_ids s.loop inp).1,
       s.trace ++ (cycle_body chat_ids s.loop inp).2.1,
       s.elapsed + CHECK_INTERVAL,
       match (cycle_body chat_ids s.loop inp).2.2 with
       | some _ => .running
       | none => .running⟩

/-- The state after `n` iterations of the steady-state loop. -/
def run_forever (chat_ids : List ChatId) (inputs : Nat → CycleInput)
    (s0 : MainState) : Nat → MainState
  | 0 => s0
  | n + 1 => main_step chat_ids (inputs n) (run_forever chat_ids inputs s0 n)

/-! ## Lemmas: the OTP extractor -/

theorem take_takeWhile_length (p : Char → Bool) (l : List Char) :
    l.take ((l.takeWhile p).length) = l.takeWhile p := by
  induction l with
  | nil => rfl
  | cons c t ih =>
      cases hc : p c <;> simp [List.takeWhile_cons, hc, ih]

theorem drop_takeWhile_length (p : Char → Bool) (l : List Char) :
    l.drop ((l.takeWhile p).length) = l.dropWhile p := by
  induction l with
  | nil => rfl
  | cons c t ih =>
      cases hc : p c <;> simp [List.takeWhile_cons, List.dropWhile_cons, hc, ih]

theorem digitsTakeOK_iff (l : List Char) (j : Nat) :
    digitsTakeOK l j = true ↔ j ≤ (l.takeWhile Char.isDigit).length := by
  induction l generalizing j with
  | nil =>
      cases j <;> simp [digitsTakeOK]
  | cons c t ih =>
      cases j with
      | zero => simp [digitsTakeOK]
      | succ j =>
          cases hc : c.isDigit
          · simp [digitsTakeOK, List.takeWhile_cons, hc]
          · simpa [digitsTakeOK, List.takeWhile_cons, hc, Nat.succ_le_succ_iff]
              using ih j

theorem digitsTakeOK_true (l : List Char) (j : Nat)
    (h : j ≤ (l.takeWhile Char.isDigit).length) : digitsTakeOK l j = true :=
  (digitsTakeOK_iff l j).mpr h

theorem digitsTakeOK_false (l : List Char) (j : Nat)
    (h : (l.takeWhile Char.isDigit).length < j) : digitsTakeOK l j = false := by
  rcases hb : digitsTakeOK l j with - | -
  · rfl
  · exact absurd ((digitsTakeOK_iff l j).mp hb) (by omega)

theorem wordOpt_head_drop (l : List Char) (i : Nat)
    (h : i < (l.takeWhile Char.isDigit).length) :
    wordOpt ((l.drop i).head?) = true := by
  induction l generalizing i with
  | nil => simp at h
  | cons c t ih =>
      cases hc : c.isDigit
      · rw [List.takeWhile_cons] at h
        simp [hc] at h
      · cases i with
        | zero => simp [wordOpt, isWordChar, Char.isAlphanum, hc]
        | succ i =>
            rw [List.takeWhile_cons] at h
            simp only [hc, if_true, List.length_cons] at h
            exact ih i (by omega)

theorem tailBoundary_lt (l : List Char) (j : Nat) (h1 : 1 ≤ j)
    (h2 : j < (l.takeWhile Char.isDigit).length) : tailBoundary l j = false := by
  have ha := wordOpt_head_drop l (j - 1) (by omega)
  have hb := wordOpt_head_drop l j h2
  rw [tailBoundary, isBoundary, ha, hb]
  rfl

theorem tailBoundary_at (l : List Char) (k : Nat)
    (hk : (l.takeWhile Char.isDigit).length = k) (h1 : 1 ≤ k) :
    tailBoundary l k = !(wordOpt ((l.dropWhile Char.isDigit).head?)) := by
  have ha := wordOpt_head_drop l (k - 1) (by omega)
  have hd : l.drop k = l.dropWhile Char.isDigit := by
    rw [← hk]
    exact drop_takeWhile_length _ _
  rw [tailBoundary, hd, isBoundary, ha]
  cases wordOpt ((l.dropWhile Char.isDigit).head?) <;> rfl

theorem matchLens_spec (l : List Char) (k : Nat)
    (hk : (l.takeWhile Char.isDigit).length = k) :
    ∀ ls : List Nat, (∀ j ∈ ls, 1 ≤ j) →
      matchLens ls l =
        if k ∈ ls ∧ wordOpt ((l.dropWhile Char.isDigit).head?) = false
        then some (l.takeWhile Char.isDigit) else none := by
  intro ls
  induction ls with
  | nil => intro _; simp [matchLens]
  | cons j js ih =>
      intro hpos
      have hj1 : 1 ≤ j := hpos j (List.mem_cons_self _ _)
      have hjs : ∀ i ∈ js, 1 ≤ i := fun i hi => hpos i (List.mem_cons_of_mem _ hi)
      rw [matchLens]
      by_cases hjk : j = k
      · subst hjk
        have hd : digitsTakeOK l j = true := digitsTakeOK_true _ _ (by omega)
        have ht := tailBoundary_at l j hk (by omega)
        rw [hd, ht]
        cases hw : wordOpt ((l.dropWhile Char.isDigit).head?)
        · have htake : l.take j = l.takeWhile Char.isDigit := by
            rw [← hk]
            exact take_takeWhile_length _ _
          simp only [Bool.not_false, Bool.and_true, if_true, htake]
          rw [if_pos ⟨List.mem_cons_self _ _, by trivial⟩]
        · rw [ih hjs]
          simp [hw]
      · have hcond : (digitsTakeOK l j && tailBoundary l j) = false := by
          rcases Nat.lt_or_ge k j with hlt | hge
          · rw [digitsTakeOK_false _ _ (by omega)]
            exact Bool.false_and _
          · rw [tailBoundary_lt _ _ hj1 (by omega)]
            exact Bool.and_false _
        rw [hcond]
        simp only [Bool.false_eq_true, if_false]
        rw [ih hjs]
        have hmem : k ∈ j :: js ↔ k ∈ js := by
          constructor
          · intro h
            exact (List.mem_cons.mp h).resolve_left fun h1 => hjk h1.symm
          · exact List.mem_cons_of_mem _
        exact if_congr (and_congr_left' hmem.symm) rfl rfl

theorem regexMatchAt_cons (prev : Option Char) (c : Char) (rest : List Char) :
    regexMatchAt prev (c :: rest) =
      if wordOpt prev = false ∧ c.isDigit = true ∧
          4 ≤ ((c :: rest).takeWhile Char.isDigit).length ∧
          ((c :: rest).takeWhile Char.isDigit).length ≤ 8 ∧
          wordOpt (((c :: rest).dropWhile Char.isDigit).head?) = false
      then some ((c :: rest).takeWhile Char.isDigit) else none := by
  have hm := matchLens_spec (c :: rest)
    ((List.takeWhile Char.isDigit (c :: rest)).length) rfl
    [8, 7, 6, 5, 4] (by decide)
  rw [regexMatchAt, List.head?_cons, hm]
  cases hc : c.isDigit
  · have hk0 : (List.takeWhile Char.isDigit (c :: rest)).length = 0 := by
      simp [List.takeWhile_cons, hc]
    rw [hk0]
    simp [hc]
  · have hwc : wordOpt (some c) = true := by
      simp [wordOpt, isWordChar, Char.isAlphanum, hc]
    rw [isBoundary, hwc]
    cases hp : wordOpt prev
    · rw [show ((false : Bool) != true) = true from rfl, if_pos rfl]
      refine if_congr ?_ rfl rfl
      constructor
      · rintro ⟨hmem, hw⟩
        simp only [List.mem_cons, List.not_mem_nil, or_false] at hmem
        exact ⟨rfl, rfl, by omega, by omega, hw⟩
      · rintro ⟨-, -, h4, h8, hw⟩
        refine ⟨?_, hw⟩
        simp only [List.mem_cons, List.not_mem_nil, or_false]
        omega
    · rw [show ((true : Bool) != true) = false from rfl]
      simp

theorem regexSearch_eq_specFirstRun (l : List Char) :
    ∀ prev, regexSearch prev l = specFirstRun prev l := by
  induction l with
  | nil =>
      intro prev
      have hm := matchLens_spec [] 0 rfl [8, 7, 6, 5, 4] (by decide)
      simp only [List.mem_cons, List.not_mem_nil, or_false] at hm
      rw [if_neg (by simp)] at hm
      simp [regexSearch, specFirstRun, regexMatchAt, hm]
  | cons c rest ih =>
      intro prev
      rw [regexSearch, regexMatchAt_cons, specFirstRun]
      by_cases h : wordOpt prev = false ∧ c.isDigit = true ∧
          4 ≤ ((c :: rest).takeWhile Char.isDigit).length ∧
          ((c :: rest).takeWhile Char.isDigit).length ≤ 8 ∧
          wordOpt (((c :: rest).dropWhile Char.isDigit).head?) = false
      · rw [if_pos h, if_pos h]
      · rw [if_neg h, if_neg h]
        exact ih (some c)

/-- C2: for every input text, `extract_otp` returns the first
(left-to-right) maximal run of 4 to 8 decimal digits bounded by
non-digit/word boundaries (`spec_otp`, written from the spec), and
returns absent when no such run exists; in particular `"Call 911 now"`
(whose only digit run is shorter than 4) yields absent, a maximal run of
9 or more digits is never matched, and the spec's positive example
extracts its code. -/
theorem extract_otp_spec :
    (∀ s : String, extract_otp s = spec_otp s)
    ∧ extract_otp "Call 911 now" = none
    ∧ extract_otp "order 123456789 confirmed" = none
    ∧ extract_otp "Your code is 48213 exp 5m" = some "48213" := by
  refine ⟨fun s => ?_, by decide, by decide, by decide⟩
  rw [extract_otp, spec_otp, regexSearch_eq_specFirstRun]

/-! ## The cache store: C6 and C9 -/

/-- C6: cache load is total — it is a function on every file-system
state (the bare `except` returns instead of re-raising): on a missing
file or malformed content it returns the empty set, and on an intact
array it returns the set of persisted fingerprints. -/
theorem load_cache_total :
    load_cache .absent = ∅
    ∧ load_cache .malformed = ∅
    ∧ ∀ l : List String, load_cache (.strings l) = l.toFinset :=
  ⟨rfl, rfl, fun _ => rfl⟩

theorem load_save (d : Finset String) : load_cache (save_cache d) = d := by
  show ((d.sort (· ≤ ·)).toFinset : Finset String) = d
  exact Finset.sort_toFinset _ _

/-- C9: cache persistence round-trips — loading after saving yields the
same set, `save(load())` is idempotent on every file state, and a
fingerprint added and persisted is present after a fresh load
(simulated restart). -/
theorem cache_round_trip :
    (∀ d : Finset String, load_cache (save_cache d) = d)
    ∧ (∀ fs : FileState, load_cache (save_cache (load_cache fs)) = load_cache fs)
    ∧ ∀ (d : Finset String) (x : String),
        x ∈ load_cache (save_cache (insert x d)) :=
  ⟨load_save, fun fs => load_save _, fun d x => by
    rw [load_save]
    exact Finset.mem_insert_self x d⟩

/-! ## The notifier: C7 -/

/-- C7 counterexample: with destinations `[1, 2]` and delivery to chat 1
raising, delivery is never attempted to chat 2 — the `for` loop has no
per-destination guard, so the failure prevents the remaining attempts,
refuting the claim. -/
theorem send_to_telegram_cex :
    (send_to_telegram_run (fun c => c != 1) [1, 2] "code 1234").1 = [1]
    ∧ (2 : ChatId) ∉ (send_to_telegram_run (fun c => c != 1) [1, 2] "code 1234").1 := by
  decide

/-- C7 amended: a delivery failure to one destination aborts the
notifier — delivery is attempted exactly to the longest all-successful
prefix of the destination list plus the first failing destination, and
the call completes without raising exactly when every delivery
succeeded. -/
theorem send_to_telegram_attempts (sendOk : ChatId → Bool) (ids : List ChatId)
    (raw : String) :
    send_to_telegram_run sendOk ids raw
      = (ids.takeWhile sendOk ++ (ids.dropWhile sendOk).take 1,
         (ids.dropWhile sendOk).isEmpty) := by
  show send_loop sendOk ids = _
  induction ids with
  | nil => rfl
  | cons c rest ih =>
      cases h : sendOk c
      · simp [send_loop, h, List.takeWhile_cons, List.dropWhile_cons]
      · simp [send_loop, h, List.takeWhile_cons, List.dropWhile_cons, ih]

/-! ## Startup configuration: C8 -/

/-- C8 counterexample: with both login credentials absent and an empty
destination list (but a well-formed bot token), the module config block
completes normally — the program does not abort at startup, refuting
the claim that any missing required configuration item aborts
immediately. -/
theorem module_init_cex :
    module_init ⟨none, none, some "123:ABC", some []⟩
      = .ok ⟨none, none, [], "123:ABC"⟩ := by
  rfl

/-- C8 amended: the only configuration item validated at startup is the
bot token — module initialization aborts (with the descriptive
`InvalidToken` message of the bot constructor) exactly when the token is
absent or empty; missing login credentials and a missing or empty
destination list are accepted unchecked, and the run then proceeds (to
the login attempt) with the unvalidated values. -/
theorem module_init_aborts_iff (env : StartupEnv) :
    ((∃ e, module_init env = .error e)
      ↔ env.TELEGRAM_BOT_TOKEN = none ∨ env.TELEGRAM_BOT_TOKEN = some "")
    ∧ ∀ c, module_init env = .ok c →
        c.email = env.IVASMS_EMAIL ∧ c.password = env.IVASMS_PASSWORD
          ∧ c.chatIds = env.TELEGRAM_CHAT_IDS.getD [] := by
  rcases env with ⟨em, pw, tok, ids⟩
  cases tok with
  | none =>
      refine ⟨⟨fun _ => Or.inl rfl, fun _ => ⟨"InvalidToken", rfl⟩⟩, fun c h => ?_⟩
      simp [module_init, bot_init] at h
  | some t =>
      by_cases ht : t = ""
      · subst ht
        refine ⟨⟨fun _ => Or.inr rfl, fun _ => ⟨"InvalidToken", rfl⟩⟩, fun c h => ?_⟩
        simp [module_init, bot_init] at h
      · have hok : module_init ⟨em, pw, some t, ids⟩
            = .ok ⟨em, pw, ids.getD [], t⟩ := by
          simp [module_init, bot_init, ht]
        refine ⟨⟨?_, ?_⟩, ?_⟩
        · rintro ⟨e, he⟩
          rw [hok] at he
          exact absurd he (by simp)
        · rintro (h | h)
          · exact absurd h (by simp)
          · exact absurd (Option.some.inj h) ht
        · intro c h
          rw [hok] at h
          rcases Except.ok.inj h with rfl
          exact ⟨rfl, rfl, rfl⟩

/-- C8 amended, witnessed: a run with a missing bot token aborts. -/
theorem module_init_aborts_iff_witness :
    ∃ e, module_init ⟨some "user", some "pw", none, none⟩ = .error e :=
  (module_init_aborts_iff ⟨some "user", some "pw", none, none⟩).1.mpr (Or.inl rfl)

/-! ## The fetcher: C5 -/

/-- C5: when the landing page carries no CSRF token, `fetch_sms` returns
an empty list and raises nothing — the error constructor is never
produced on this path, so the cycle sees an ordinary empty result. -/
theorem fetch_sms_no_csrf (cookies : List Cookie) (env : FetchEnv)
    (h : env.dash = .ok none) : fetch_sms cookies env = .ok [] := by
  by_cases hc : cookies.isEmpty
  · simp [fetch_sms, hc]
  · simp [fetch_sms, hc, h]

/-- C5 witnessed on a concrete session and portal response. -/
theorem fetch_sms_no_csrf_witness :
    fetch_sms [("PHPSESSID", "v", "ivasms.com")] ⟨.ok none, .ok ["card"]⟩
      = .ok [] :=
  fetch_sms_no_csrf _ _ rfl

/-! ## The login function: C3 -/

theorem login_attempts_le (o : Nat → AttemptOutcome) (a r : Nat) :
    (login_attempts o a r).2 ≤ r := by
  induction r generalizing a with
  | zero => simp [login_attempts]
  | succ r ih =>
      cases hoa : o a with
      | cookies cs =>
          by_cases hcs : cs.isEmpty
          · have := ih (a + 1)
            simp [login_attempts, hoa, hcs]
            omega
          · simp [login_attempts, hoa, hcs]
      | formNotFound =>
          have := ih (a + 1)
          simp [login_attempts, hoa]
          omega
      | raised =>
          have := ih (a + 1)
          simp [login_attempts, hoa]
          omega

theorem login_attempts_some (o : Nat → AttemptOutcome) (a r : Nat)
    (cs : List Cookie) (h : (login_attempts o a r).1 = some cs) : cs ≠ [] := by
  induction r generalizing a with
  | zero => simp [login_attempts] at h
  | succ r ih =>
      cases hoa : o a with
      | cookies cs2 =>
          by_cases hcs : cs2.isEmpty
          · rw [login_attempts] at h
            rw [hoa] at h
            simp [hcs] at h
            exact ih (a + 1) h
          · rw [login_attempts] at h
            rw [hoa] at h
            simp [hcs] at h
            subst h
            simpa [List.isEmpty_iff] using hcs
      | formNotFound =>
          rw [login_attempts] at h
          rw [hoa] at h
          exact ih (a + 1) h
      | raised =>
          rw [login_attempts] at h
          rw [hoa] at h
          exact ih (a + 1) h

theorem login_attempts_all_fail (o : Nat → AttemptOutcome) (a r : Nat)
    (h : ∀ i, a ≤ i → i < a + r → attempt_fails (o i) = true) :
    login_attempts o a r = (none, r) := by
  induction r generalizing a with
  | zero => rfl
  | succ r ih =>
      have ha : attempt_fails (o a) = true := h a le_rfl (by omega)
      have ihr := ih (a + 1) fun i h1 h2 => h i (by omega) (by omega)
      cases hoa : o a with
      | cookies cs =>
          have hcs : cs.isEmpty = true := by rw [hoa] at ha; exact ha
          simp [login_attempts, hoa, hcs, ihr]
      | formNotFound => simp [login_attempts, hoa, ihr]
      | raised => simp [login_attempts, hoa, ihr]

theorem login_attempts_as_failure (o o2 : Nat → AttemptOutcome)
    (h : ∀ i, o2 i = as_failure (o i)) (a r : Nat) :
    login_attempts o2 a r = login_attempts o a r := by
  induction r generalizing a with
  | zero => rfl
  | succ r ih =>
      have h2 := h a
      cases hoa : o a with
      | cookies cs =>
          rw [hoa] at h2
          simp only [as_failure] at h2
          simp [login_attempts, hoa, h2, ih]
      | formNotFound =>
          rw [hoa] at h2
          simp only [as_failure] at h2
          simp [login_attempts, hoa, h2, ih]
      | raised =>
          rw [hoa] at h2
          simp only [as_failure] at h2
          simp [login_attempts, hoa, h2, ih]

/-- C3: the login function performs at most `max_retry` attempts; if
every attempt in range fails (form not found, an in-attempt exception,
or an empty cookie list) it returns the definitive no-session result
`none` after exactly `max_retry` attempts, with no further retry; a
`some` result always carries a non-empty cookie collection; and an
exception during an attempt behaves exactly like the plain
form-not-found failure of that attempt instead of propagating. -/
theorem login_and_get_cookies_spec (outcome : Nat → AttemptOutcome)
    (max_retry : Nat) :
    (login_and_get_cookies outcome max_retry).2 ≤ max_retry
    ∧ (∀ cs, (login_and_get_cookies outcome max_retry).1 = some cs → cs ≠ [])
    ∧ ((∀ i, 1 ≤ i → i ≤ max_retry → attempt_fails (outcome i) = true) →
        login_and_get_cookies outcome max_retry = (none, max_retry))
    ∧ login_and_get_cookies (fun i => as_failure (outcome i)) max_retry
        = login_and_get_cookies outcome max_retry :=
  ⟨login_attempts_le outcome 1 max_retry,
   login_attempts_some outcome 1 max_retry,
   fun h => login_attempts_all_fail outcome 1 max_retry
     fun i h1 h2 => h i h1 (by omega),
   login_attempts_as_failure outcome (fun i => as_failure (outcome i))
     (fun _ => rfl) 1 max_retry⟩

/-- C3 witnessed: three consecutive form-not-found failures at the
default retry limit of 3 yield `(none, 3)` — no session, no fourth
attempt. -/
theorem login_and_get_cookies_spec_witness :
    login_and_get_cookies (fun _ => .formNotFound) 3 = (none, 3) :=
  (login_and_get_cookies_spec (fun _ => .formNotFound) 3).2.2.1
    fun _ _ _ => rfl

/-! ## The poll loop: lemmas -/

theorem send_loop_all_true (f : ChatId → Bool) (h : ∀ c, f c = true)
    (ids : List ChatId) : send_loop f ids = (ids, true) := by
  induction ids with
  | nil => rfl
  | cons c rest ih => simp [send_loop, h c, ih]

theorem fingerprints_save (s : Finset String) :
    fileFingerprints (save_cache s) = s := by
  show ((s.sort (· ≤ ·)).toFinset : Finset String) = s
  exact Finset.sort_toFinset _ _

theorem process_msgs_mono (chat_ids : List ChatId) (inp : CycleInput)
    (msgs : List String) (st : LoopState) :
    st.sent_cache ⊆ (process_msgs chat_ids inp msgs st).1.sent_cache := by
  induction msgs generalizing st with
  | nil => exact Finset.Subset.refl _
  | cons m rest ih =>
      by_cases hm : m ∈ st.sent_cache
      · simpa [process_msgs, hm] using ih st
      · cases hsend : (send_to_telegram_run (inp.sendOk m) chat_ids m).2
        · simp [process_msgs, hm, hsend]
        · cases hsave : inp.saveOk m
          · simp only [process_msgs, hm, if_false, hsend, hsave, if_true]
            exact Finset.subset_insert _ _
          · have h2 := ih ⟨insert m st.sent_cache,
              save_cache (insert m st.sent_cache)⟩
            simp only [process_msgs, hm, if_false, hsend, hsave, if_true]
            exact (Finset.subset_insert _ _).trans h2

theorem process_msgs_ok (chat_ids : List ChatId) (inp : CycleInput)
    (hall : allOk inp) (msgs : List String) (st : LoopState) :
    (process_msgs chat_ids inp msgs st).2.2 = none
    ∧ (process_msgs chat_ids inp msgs st).1.sent_cache
        = st.sent_cache ∪ (process_msgs chat_ids inp msgs st).2.1.toFinset
    ∧ (process_msgs chat_ids inp msgs st).2.1.Nodup
    ∧ (∀ x ∈ (process_msgs chat_ids inp msgs st).2.1, x ∉ st.sent_cache)
    ∧ (∀ x ∈ msgs, x ∈ (process_msgs chat_ids inp msgs st).1.sent_cache) := by
  induction msgs generalizing st with
  | nil => simp [process_msgs]
  | cons m rest ih =>
      have hsend : (send_to_telegram_run (inp.sendOk m) chat_ids m).2 = true := by
        show (send_loop (inp.sendOk m) chat_ids).2 = true
        rw [send_loop_all_true (inp.sendOk m) (hall.1 m)]
      have hsave : inp.saveOk m = true := hall.2 m
      by_cases hm : m ∈ st.sent_cache
      · obtain ⟨i1, i2, i3, i4, i5⟩ := ih st
        have hmono := process_msgs_mono chat_ids inp rest st
        refine ⟨?_, ?_, ?_, ?_, ?_⟩ <;>
          simp only [process_msgs, hm, if_true]
        · exact i1
        · exact i2
        · exact i3
        · exact i4
        · intro x hx
          rcases List.mem_cons.mp hx with rfl | hx2
          · exact hmono hm
          · exact i5 x hx2
      · obtain ⟨i1, i2, i3, i4, i5⟩ :=
          ih ⟨insert m st.sent_cache, save_cache (insert m st.sent_cache)⟩
        have hmono := process_msgs_mono chat_ids inp rest
          ⟨insert m st.sent_cache, save_cache (insert m st.sent_cache)⟩
        refine ⟨?_, ?_, ?_, ?_, ?_⟩ <;>
          simp only [process_msgs, hm, if_false, hsend, hsave, if_true]
        · exact i1
        · rw [i2]
          simp [Finset.insert_union, Finset.union_insert]
        · refine List.nodup_cons.mpr ⟨fun hmem => ?_, i3⟩
          exact i4 m hmem (Finset.mem_insert_self _ _)
        · intro x hx
          rcases List.mem_cons.mp hx with rfl | hx2
          · exact hm
          · intro hxs
            exact i4 x hx2 (Finset.mem_insert_of_mem hxs)
        · intro x hx
          rcases List.mem_cons.mp hx with rfl | hx2
          · exact hmono (Finset.mem_insert_self _ _)
          · exact i5 x hx2

theorem cycle_step_mono (chat_ids : List ChatId) (st : LoopState)
    (inp : CycleInput) :
    st.sent_cache ⊆ (cycle_step chat_ids st inp).1.sent_cache := by
  cases hf : inp.fetched with
  | error e => simp [cycle_step, cycle_body, hf]
  | ok msgs =>
      simpa [cycle_step, cycle_body, hf] using
        process_msgs_mono chat_ids inp msgs st

theorem cycle_step_ok (chat_ids : List ChatId) (inp : CycleInput)
    (hall : allOk inp) (st : LoopState) :
    (cycle_step chat_ids st inp).1.sent_cache
        = st.sent_cache ∪ (cycle_step chat_ids st inp).2.toFinset
    ∧ (cycle_step chat_ids st inp).2.Nodup
    ∧ (∀ x ∈ (cycle_step chat_ids st inp).2, x ∉ st.sent_cache)
    ∧ ∀ m, appears m inp → m ∈ (cycle_step chat_ids st inp).1.sent_cache := by
  cases hf : inp.fetched with
  | error e =>
      refine ⟨by simp [cycle_step, cycle_body, hf], by simp [cycle_step, cycle_body, hf],
        by simp [cycle_step, cycle_body, hf], ?_⟩
      rintro m ⟨msgs, hmsgs, -⟩
      rw [hf] at hmsgs
      exact absurd hmsgs (by simp)
  | ok msgs =>
      obtain ⟨-, i2, i3, i4, i5⟩ := process_msgs_ok chat_ids inp hall msgs st
      refine ⟨by simpa [cycle_step, cycle_body, hf] using i2,
        by simpa [cycle_step, cycle_body, hf] using i3,
        by simpa [cycle_step, cycle_body, hf] using i4, ?_⟩
      rintro m ⟨msgs2, hmsgs, hmem⟩
      rw [hf] at hmsgs
      rcases Except.ok.inj hmsgs with rfl
      simpa [cycle_step, cycle_body, hf] using i5 m hmem

theorem run_cycles_mono (chat_ids : List ChatId) (inputs : List CycleInput)
    (st : LoopState) :
    st.sent_cache ⊆ (run_cycles chat_ids inputs st).1.sent_cache := by
  induction inputs generalizing st with
  | nil => exact Finset.Subset.refl _
  | cons inp rest ih =>
      exact (cycle_step_mono chat_ids st inp).trans
        (by simpa [run_cycles] using ih (cycle_step chat_ids st inp).1)

theorem run_cycles_ok (chat_ids : List ChatId) (inputs : List CycleInput)
    (hall : ∀ inp ∈ inputs, allOk inp) (st : LoopState) :
    (run_cycles chat_ids inputs st).1.sent_cache
        = st.sent_cache ∪ (run_cycles chat_ids inputs st).2.toFinset
    ∧ (run_cycles chat_ids inputs st).2.Nodup
    ∧ (∀ x ∈ (run_cycles chat_ids inputs st).2, x ∉ st.sent_cache)
    ∧ ∀ inp ∈ inputs, ∀ m, appears m inp →
        m ∈ (run_cycles chat_ids inputs st).1.sent_cache := by
  induction inputs generalizing st with
  | nil => simp [run_cycles]
  | cons inp rest ih =>
      have hinp : allOk inp := hall inp (List.mem_cons_self _ _)
      have hrest : ∀ i ∈ rest, allOk i :=
        fun i hi => hall i (List.mem_cons_of_mem _ hi)
      obtain ⟨c1, c2, c3, c4⟩ := cycle_step_ok chat_ids inp hinp st
      obtain ⟨r1, r2, r3, r4⟩ := ih hrest (cycle_step chat_ids st inp).1
      refine ⟨?_, ?_, ?_, ?_⟩ <;>
        simp only [run_cycles]
      · rw [r1, c1, List.toFinset_append, Finset.union_assoc]
      · refine List.nodup_append.mpr ⟨c2, r2, fun x hx1 hx2 => ?_⟩
        exact r3 x hx2 (c1 ▸ Finset.mem_union_right _ (List.mem_toFinset.mpr hx1))
      · intro x hx
        rcases List.mem_append.mp hx with hx1 | hx2
        · exact c3 x hx1
        · intro hxs
          exact r3 x hx2 ((cycle_step_mono chat_ids st inp) hxs)
      · intro i hi m hm
        rcases List.mem_cons.mp hi with rfl | hi2
        · exact run_cycles_mono chat_ids rest _ (c4 m hm)
        · exact r4 i hi2 m hm

/-- C1: the cache of forwarded fingerprints only grows under every
sequence of poll cycles; and in failure-free cycles the notifier is
invoked at most once per message text across the whole run — zero times
when its fingerprint was already in the intact persisted cache at
startup, and exactly once when it was not and the text appears in the
fetch result of at least one cycle (in particular, the same text fetched
in two cycles is forwarded exactly once across both). -/
theorem dedup_invariant :
    (∀ (chat_ids : List ChatId) (inputs : List CycleInput) (st : LoopState),
        st.sent_cache ⊆ (run_cycles chat_ids inputs st).1.sent_cache)
    ∧ ∀ (chat_ids : List ChatId) (inputs : List CycleInput) (l : List String)
        (m : String), (∀ inp ∈ inputs, allOk inp) →
        (run_cycles chat_ids inputs (initState l)).2.count m ≤ 1
        ∧ (m ∈ l → (run_cycles chat_ids inputs (initState l)).2.count m = 0)
        ∧ (m ∉ l → (∃ inp ∈ inputs, appears m inp) →
            (run_cycles chat_ids inputs (initState l)).2.count m = 1) := by
  refine ⟨run_cycles_mono, fun chat_ids inputs l m hall => ?_⟩
  obtain ⟨r1, r2, r3, r4⟩ := run_cycles_ok chat_ids inputs hall (initState l)
  have hinit : (initState l).sent_cache = l.toFinset := rfl
  refine ⟨List.nodup_iff_count_le_one.mp r2 m, fun hm => ?_, fun hm hap => ?_⟩
  · exact List.count_eq_zero.mpr fun hmem =>
      r3 m hmem (hinit ▸ List.mem_toFinset.mpr hm)
  · rcases hap with ⟨inp, hin, happ⟩
    have hfin : m ∈ (run_cycles chat_ids inputs (initState l)).1.sent_cache :=
      r4 inp hin m happ
    rw [r1, hinit] at hfin
    rcases Finset.mem_union.mp hfin with hl | htr
    · exact absurd (List.mem_toFinset.mp hl) hm
    · have hmem := List.mem_toFinset.mp htr
      have h1 := List.nodup_iff_count_le_one.mp r2 m
      have h0 : (run_cycles chat_ids inputs (initState l)).2.count m ≠ 0 :=
        fun h => absurd hmem (List.count_eq_zero.mp h)
      omega

/-- C1 witnessed: with `"a"` precached and `"b"` fetched in both of two
failure-free cycles, `"b"` is forwarded exactly once. -/
theorem dedup_invariant_witness :
    (run_cycles [7]
        [⟨.ok ["a", "b"], fun _ _ => true, fun _ => true⟩,
         ⟨.ok ["b"], fun _ _ => true, fun _ => true⟩]
        (initState ["a"])).2.count "b" = 1 := by
  have h := (dedup_invariant.2 [7]
    [⟨.ok ["a", "b"], fun _ _ => true, fun _ => true⟩,
     ⟨.ok ["b"], fun _ _ => true, fun _ => true⟩] ["a"] "b"
    ?_).2.2 ?_ ?_
  · exact h
  · intro inp hinp
    rcases List.mem_cons.mp hinp with rfl | hinp2
    · exact ⟨fun _ _ => rfl, fun _ => rfl⟩
    · rcases List.mem_cons.mp hinp2 with rfl | hinp3
      · exact ⟨fun _ _ => rfl, fun _ => rfl⟩
      · exact absurd hinp3 (List.not_mem_nil _)
  · decide
  · exact ⟨⟨.ok ["b"], fun _ _ => true, fun _ => true⟩,
      List.mem_cons_of_mem _ (List.mem_cons_self _ _),
      ["b"], rfl, List.mem_cons_self _ _⟩

/-! ## Notify-failure atomicity: C10 -/

theorem process_msgs_notifyFail (chat_ids : List ChatId) (inp : CycleInput)
    (msgs : List String) (st : LoopState) (m : String)
    (h : (process_msgs chat_ids inp msgs st).2.2 = some (.notifyFail m)) :
    m ∉ (process_msgs chat_ids inp msgs st).1.sent_cache
    ∧ (process_msgs chat_ids inp msgs st).1.sent_cache
        = st.sent_cache ∪ (process_msgs chat_ids inp msgs st).2.1.toFinset
    ∧ (((process_msgs chat_ids inp msgs st).2.1 = []
          ∧ (process_msgs chat_ids inp msgs st).1.file = st.file)
        ∨ (process_msgs chat_ids inp msgs st).1.file
            = save_cache (process_msgs chat_ids inp msgs st).1.sent_cache) := by
  induction msgs generalizing st with
  | nil => simp [process_msgs] at h
  | cons m2 rest ih =>
      by_cases hm : m2 ∈ st.sent_cache
      · rw [process_msgs, if_pos hm] at h ⊢
        exact ih st h
      · cases hsend : (send_to_telegram_run (inp.sendOk m2) chat_ids m2).2
        · rw [process_msgs, if_neg hm, hsend] at h ⊢
          simp only [Bool.false_eq_true, if_false] at h ⊢
          have hm2 : m2 = m := by
            simpa using h
          subst hm2
          exact ⟨hm, by simp, Or.inl (by constructor <;> trivial)⟩
        · cases hsave : inp.saveOk m2
          · rw [process_msgs, if_neg hm, hsend] at h
            simp only [if_true, hsave, Bool.false_eq_true, if_false] at h
            simp at h
          · rw [process_msgs, if_neg hm, hsend, hsave] at h ⊢
            simp only [if_true] at h ⊢
            obtain ⟨h1, h2, h3⟩ := ih
              ⟨insert m2 st.sent_cache, save_cache (insert m2 st.sent_cache)⟩ h
            refine ⟨h1, ?_, ?_⟩
            · rw [h2]
              simp [Finset.insert_union, Finset.union_insert]
            · right
              rcases h3 with ⟨hnil, hfile⟩ | hfile
              · rw [hfile, h2, hnil]
                simp
              · exact hfile

/-- C10: within a poll cycle, when delivering message `m` to the
destinations raises, `m`'s fingerprint is neither in the in-memory cache
nor in the persisted file at the end of the cycle (provided it was not
persisted before the cycle), every message forwarded earlier in the same
cycle remains cached and persisted, and `m` is still eligible: a later
failure-free cycle fetching `m` forwards it. -/
theorem notify_failure_atomic (chat_ids : List ChatId) (inp : CycleInput)
    (msgs : List String) (st : LoopState) (m : String)
    (h : (process_msgs chat_ids inp msgs st).2.2 = some (.notifyFail m)) :
    m ∉ (process_msgs chat_ids inp msgs st).1.sent_cache
    ∧ (m ∉ fileFingerprints st.file →
        m ∉ fileFingerprints (process_msgs chat_ids inp msgs st).1.file)
    ∧ (∀ x ∈ (process_msgs chat_ids inp msgs st).2.1,
        x ∈ (process_msgs chat_ids inp msgs st).1.sent_cache
        ∧ x ∈ fileFingerprints (process_msgs chat_ids inp msgs st).1.file)
    ∧ (process_msgs chat_ids ⟨.ok [m], fun _ _ => true, fun _ => true⟩ [m]
        (process_msgs chat_ids inp msgs st).1).2.1 = [m] := by
  obtain ⟨h1, h2, h3⟩ := process_msgs_notifyFail chat_ids inp msgs st m h
  have hsend : ∀ s : String,
      (send_to_telegram_run
        ((⟨.ok [m], fun _ _ => true, fun _ => true⟩ : CycleInput).sendOk s)
        chat_ids s).2 = true := by
    intro s
    show (send_loop (fun _ => true) chat_ids).2 = true
    rw [send_loop_all_true (fun _ => true) (fun _ => rfl)]
  refine ⟨h1, fun hpre => ?_, fun x hx => ?_, ?_⟩
  · rcases h3 with ⟨-, hfile⟩ | hfile
    · rw [hfile]
      exact hpre
    · rw [hfile, fingerprints_save]
      exact h1
  · have hxc : x ∈ (process_msgs chat_ids inp msgs st).1.sent_cache := by
      rw [h2]
      exact Finset.mem_union_right _ (List.mem_toFinset.mpr hx)
    refine ⟨hxc, ?_⟩
    rcases h3 with ⟨hnil, -⟩ | hfile
    · rw [hnil] at hx
      exact absurd hx (List.not_mem_nil _)
    · rw [hfile, fingerprints_save]
      exact hxc
  · rw [process_msgs, if_neg h1, hsend m]
    simp [process_msgs]

/-- C10 witnessed: fetching `["x", "y"]` from an empty cache with
delivery of `"y"` raising forwards `"x"`, caches and persists only
`"x"`, and leaves `"y"` unforwarded and uncached. -/
theorem notify_failure_atomic_witness :
    "y" ∉ (process_msgs [5]
        ⟨.ok ["x", "y"], fun s _ => s != "y", fun _ => true⟩ ["x", "y"]
        (initState [])).1.sent_cache :=
  (notify_failure_atomic [5]
    ⟨.ok ["x", "y"], fun s _ => s != "y", fun _ => true⟩ ["x", "y"]
    (initState []) "y" (by decide)).1

/-! ## The infinite loop: C4 -/

theorem main_step_running (chat_ids : List ChatId) (inp : CycleInput)
    (s : MainState) (hs : s.status = .running) :
    (main_step chat_ids inp s).status = .running
    ∧ (main_step chat_ids inp s).elapsed = s.elapsed + CHECK_INTERVAL := by
  rcases s with ⟨lp, tr, el, stt⟩
  cases stt
  · cases h2 : (cycle_body chat_ids lp inp).2.2 <;> simp [main_step, h2]
  · exact absurd hs (by simp)

/-- C4: once the steady-state loop is entered (status running), after
any number of cycles — under every oracle, including ones whose fetch,
notify or persist raises — the loop is still running (the cycle-level
handler catches every body exception), the next iteration is obtained by
applying the cycle step to the current state (the loop proceeds to the
next cycle, never terminating), and each completed cycle adds exactly
one `CHECK_INTERVAL` sleep. -/
theorem loop_never_terminates (chat_ids : List ChatId)
    (inputs : Nat → CycleInput) (s0 : MainState)
    (h : s0.status = .running) (n : Nat) :
    (run_forever chat_ids inputs s0 n).status = .running
    ∧ run_forever chat_ids inputs s0 (n + 1)
        = main_step chat_ids (inputs n) (run_forever chat_ids inputs s0 n)
    ∧ (run_forever chat_ids inputs s0 n).elapsed
        = s0.elapsed + CHECK_INTERVAL * n := by
  induction n with
  | zero => exact ⟨h, rfl, by simp [run_forever]⟩
  | succ n ih =>
      obtain ⟨h1, -, h3⟩ := ih
      obtain ⟨g1, g2⟩ := main_step_running chat_ids (inputs n)
        (run_forever chat_ids inputs s0 n) h1
      refine ⟨g1, rfl, ?_⟩
      rw [show run_forever chat_ids inputs s0 (n + 1)
        = main_step chat_ids (inputs n) (run_forever chat_ids inputs s0 n)
        from rfl, g2, h3]
      ring

/-- C4 witnessed: three cycles whose fetch raises every time leave the
loop running with three sleeps elapsed. -/
theorem loop_never_terminates_witness :
    (run_forever [] (fun _ => ⟨.error (), fun _ _ => true, fun _ => true⟩)
        ⟨⟨∅, .absent⟩, [], 0, .running⟩ 3).status = .running
    ∧ (run_forever [] (fun _ => ⟨.error (), fun _ _ => true, fun _ => true⟩)
        ⟨⟨∅, .absent⟩, [], 0, .running⟩ 3).elapsed = 0 + CHECK_INTERVAL * 3 :=
  ⟨(loop_never_terminates [] (fun _ => ⟨.error (), fun _ _ => true, fun _ => true⟩)
      ⟨⟨∅, .absent⟩, [], 0, .running⟩ rfl 3).1,
   (loop_never_terminates [] (fun _ => ⟨.error (), fun _ _ => true, fun _ => true⟩)
      ⟨⟨∅, .absent⟩, [], 0, .running⟩ rfl 3).2.2⟩

end IvasmsBot
